import Mathlib

/-!
Shallow embedding of `src/server.js` (hydro-search): the item ("lesson")
catalog, the search endpoint `GET /api/search`, and the order-placement
endpoint `POST /api/orders`.

Modelling conventions:
* MongoDB collections are lists of records; `_id` values are plain strings
  (the `ObjectId` wrapper is identity on well-formed ids; claims only
  involve well-formed ids).
* JavaScript numbers carried by the inventory are modelled as `Int`
  (the Mongo `$inc` update can drive `availableInventory` negative), prices
  as `Nat`.
* JS falsiness of the validated request fields (line 97): a missing
  `lessonIDs` is `none`; an empty string is falsy; `numberOfSpaces` is falsy
  exactly when it is `0` (an absent field is modelled as `0`).
* The `createdAt` wall-clock timestamp of an order is omitted: no claim
  mentions it.
* The outcome of `ordersCollection.insertOne` (which may throw, caught by
  the surrounding `try` as a 500 response) is an explicit `insertOk` flag.
* The search endpoint of lines 58-72 is not embedded: its filter delegates
  to the ECMAScript RegExp engine and to `Number` coercion over IEEE-754
  doubles, neither of which this development models.
-/

/-- A catalog item (a "lesson" document in the `lessons` collection). -/
structure Item where
  id : String
  title : String
  location : String
  price : Nat
  availableInventory : Int
  deriving Repr, DecidableEq

/-- A persisted order document (the `orders` collection), server.js lines 130-141. -/
structure Order where
  name : String
  phoneNumber : String
  address : String
  city : String
  state : String
  zip : String
  lessonIDs : List String
  lessonNames : List String
  numberOfSpaces : Nat
  deriving Repr, DecidableEq

/-- The body of a `POST /api/orders` request (server.js line 95).
`lessonIDs` is `none` when the field is absent from the JSON body. -/
structure OrderRequest where
  name : String
  phoneNumber : String
  address : String
  city : String
  state : String
  zip : String
  lessonIDs : Option (List String)
  numberOfSpaces : Nat
  deriving Repr, DecidableEq

/-- The durable state: the `lessons` and `orders` collections of `hydroDB`. -/
structure DB where
  lessons : List Item
  orders : List Order
  deriving Repr, DecidableEq

/-- Outcome of one `POST /api/orders` call. `validationError` is the 400 of
line 98, `insufficient` the 400 of lines 112-115 (carrying the title of the
offending lesson, the needed count and the available count), `storageError`
the 500 of line 150, `success` the 200 of lines 145-148. -/
inductive OrderResult where
  | validationError
  | insufficient (title : String) (needed : Nat) (available : Int)
  | storageError
  | success
  deriving Repr, DecidableEq

/-- Model of `Object.keys(lessonCountMap)` (line 105): the ids of the
request deduplicated in first-occurrence (insertion) order. -/
def objectKeys : List String → List String
  | [] => []
  | x :: xs => x :: (objectKeys xs).filter (fun y => y != x)

/-- Model of the batch read `lessonsCollection.find` with an `$in` query
over `objectIds` (line 106): the items whose id is among `objectIds`, in
collection order; unknown ids are silently omitted. -/
def batchRead (store : List Item) (objectIds : List String) : List Item :=
  store.filter (fun it => objectIds.contains it.id)

/-- Model of the `updateOne` call applying `$inc` of `-n` to
`availableInventory` (line 121): decrement the unique item carrying the
given id by `n`. -/
def decrementItem : List Item → String → Nat → List Item
  | [], _, _ => []
  | it :: rest, id, n =>
    if it.id == id then
      { it with availableInventory := it.availableInventory - n } :: rest
    else
      it :: decrementItem rest id n

/-- The decrement loop of lines 119-122: for each lesson of the batch read,
apply its `$inc` to the current collection state. `ids.count l.id` is
the count `lessonCountMap[lesson._id]` built in lines 102-103. -/
def applyDecrements (store : List Item) (lessons : List Item) (ids : List String) : List Item :=
  lessons.foldl (fun st l => decrementItem st l.id (ids.count l.id)) store

/-- The denormalized title list of lines 124-128: for each batch-read lesson
(in batch-read order), its title repeated `lessonCountMap[lesson._id]`
times. -/
def buildLessonNames (lessons : List Item) (ids : List String) : List String :=
  lessons.flatMap (fun l => List.replicate (ids.count l.id) l.title)

/-- The handler of `POST /api/orders` (lines 93-152): validate, aggregate
demand, batch-read, check availability, decrement, persist. `insertOk` is
whether `ordersCollection.insertOne` succeeds (line 143); the thrown error
on failure is the catch-all 500 of lines 149-151, reached after the
decrements of lines 119-122 have already been applied. -/
def placeOrder (db : DB) (req : OrderRequest) (insertOk : Bool) : OrderResult × DB :=
  match req.lessonIDs with
  | none => (.validationError, db)
  | some ids =>
    if req.name == "" || req.phoneNumber == "" || req.address == "" || req.city == "" ||
       req.state == "" || req.zip == "" || req.numberOfSpaces == 0 then
      (.validationError, db)
    else
      let objectIds := objectKeys ids
      let lessons := batchRead db.lessons objectIds
      match lessons.find? (fun l => decide (l.availableInventory < (ids.count l.id : Int))) with
      | some l => (.insufficient l.title (ids.count l.id) l.availableInventory, db)
      | none =>
        let newLessons := applyDecrements db.lessons lessons ids
        let names := buildLessonNames lessons ids
        let order : Order :=
          { name := req.name, phoneNumber := req.phoneNumber, address := req.address,
            city := req.city, state := req.state, zip := req.zip,
            lessonIDs := objectIds, lessonNames := names,
            numberOfSpaces := req.numberOfSpaces }
        if insertOk then
          (.success, { lessons := newLessons, orders := db.orders ++ [order] })
        else
          (.storageError, { db with lessons := newLessons })

/-- Two concurrent `POST /api/orders` calls interleaved so that the `find`
of both calls at line 106 resolves against the same lessons state `st`
before either reaches the decrement loop at line 119 (each `await` is a
yield point). Returns the final lessons state when both calls pass their
availability checks and both apply their decrements; `none` when at least
one check fails. -/
def raceTwoOrders (st : List Item) (ids1 ids2 : List String) : Option (List Item) :=
  let lessons1 := batchRead st (objectKeys ids1)
  let lessons2 := batchRead st (objectKeys ids2)
  if (lessons1.find? (fun l => decide (l.availableInventory < (ids1.count l.id : Int)))).isNone
     && (lessons2.find? (fun l => decide (l.availableInventory < (ids2.count l.id : Int)))).isNone
  then
    some (applyDecrements (applyDecrements st lessons1 ids1) lessons2 ids2)
  else
    none

/-- The title of the unique stored item with identifier `x`: the item→title
map used to state what a per-unit parallel title sequence would be. -/
def titleOf (store : List Item) (x : String) : String :=
  (((store.find? (fun it => it.id == x)).map Item.title).getD "")

/-- Concrete catalog fixtures (drawn from the seed data of lines 77-83). -/
def itemA : Item := ⟨"a1", "English Language", "BIRMINGHAM", 2000, 5⟩

def itemB : Item := ⟨"b1", "French", "PARIS", 1800, 2⟩

def itemF : Item := ⟨"f1", "Spanish", "MADRID", 1800, 5⟩

/-- A request whose customer fields are all present and non-empty. -/
def baseReq (ids : Option (List String)) (spaces : Nat) : OrderRequest :=
  ⟨"Ada", "0123456789", "1 Main St", "Leeds", "Yorkshire", "LS1", ids, spaces⟩

/-! ## Helper lemmas -/

theorem mem_objectKeys (x : String) : ∀ l : List String, x ∈ objectKeys l ↔ x ∈ l
  | [] => by simp [objectKeys]
  | y :: ys => by
    simp only [objectKeys, List.mem_cons, List.mem_filter, mem_objectKeys x ys,
      bne_iff_ne, ne_eq]
    by_cases h : x = y
    · simp [h]
    · simp [h]

theorem nodup_objectKeys : ∀ l : List String, (objectKeys l).Nodup
  | [] => by simp [objectKeys]
  | y :: ys => by
    rw [objectKeys, List.nodup_cons]
    refine ⟨fun hmem => ?_, (nodup_objectKeys ys).filter _⟩
    have := (List.mem_filter.mp hmem).2
    simp at this

theorem batchRead_nil (st : List Item) : batchRead st [] = [] := by
  simp [batchRead]

/-- Outcome inversion for `placeOrder`: exactly four result shapes are
possible, and the two error results of the handler leave the database
untouched while the storage-failure result keeps the already-applied
decrements and adds no order. -/
theorem placeOrder_cases (db : DB) (req : OrderRequest) (insertOk : Bool) :
    placeOrder db req insertOk = (.validationError, db) ∨
    (∃ t n a, placeOrder db req insertOk = (.insufficient t n a, db)) ∨
    (∃ ids, req.lessonIDs = some ids ∧ insertOk = true ∧
      placeOrder db req insertOk =
        (.success,
         ⟨applyDecrements db.lessons (batchRead db.lessons (objectKeys ids)) ids,
          db.orders ++
            [⟨req.name, req.phoneNumber, req.address, req.city, req.state, req.zip,
              objectKeys ids, buildLessonNames (batchRead db.lessons (objectKeys ids)) ids,
              req.numberOfSpaces⟩]⟩)) ∨
    (∃ ids, req.lessonIDs = some ids ∧ insertOk = false ∧
      placeOrder db req insertOk =
        (.storageError,
         ⟨applyDecrements db.lessons (batchRead db.lessons (objectKeys ids)) ids,
          db.orders⟩)) := by
  cases hids : req.lessonIDs with
  | none =>
    left
    simp [placeOrder, hids]
  | some ids =>
    by_cases hv : (req.name == "" || req.phoneNumber == "" || req.address == "" ||
        req.city == "" || req.state == "" || req.zip == "" ||
        req.numberOfSpaces == 0) = true
    · left
      simp [placeOrder, hids, hv]
    · rw [Bool.not_eq_true] at hv
      cases hfind : (batchRead db.lessons (objectKeys ids)).find?
          (fun l => decide (l.availableInventory < (ids.count l.id : Int))) with
      | some l =>
        right; left
        refine ⟨l.title, ids.count l.id, l.availableInventory, ?_⟩
        simp [placeOrder, hids, hv, hfind]
      | none =>
        cases insertOk with
        | true =>
          right; right; left
          refine ⟨ids, rfl, rfl, ?_⟩
          simp [placeOrder, hids, hv, hfind]
        | false =>
          right; right; right
          refine ⟨ids, rfl, rfl, ?_⟩
          simp [placeOrder, hids, hv, hfind]

/-- Evaluation of the success path of `placeOrder`: when the request passes
validation and every batch-read lesson satisfies its demanded count, the
call decrements each read lesson and appends exactly one order record. -/
theorem placeOrder_success_eq
    (db : DB) (req : OrderRequest) (ids : List String)
    (hids : req.lessonIDs = some ids)
    (hname : req.name ≠ "") (hphone : req.phoneNumber ≠ "") (haddr : req.address ≠ "")
    (hcity : req.city ≠ "") (hstate : req.state ≠ "") (hzip : req.zip ≠ "")
    (hnum : req.numberOfSpaces ≠ 0)
    (hsat : ∀ l ∈ batchRead db.lessons (objectKeys ids),
      (ids.count l.id : Int) ≤ l.availableInventory) :
    placeOrder db req true =
      (.success,
       ⟨applyDecrements db.lessons (batchRead db.lessons (objectKeys ids)) ids,
        db.orders ++
          [⟨req.name, req.phoneNumber, req.address, req.city, req.state, req.zip,
            objectKeys ids, buildLessonNames (batchRead db.lessons (objectKeys ids)) ids,
            req.numberOfSpaces⟩]⟩) := by
  have hfind : (batchRead db.lessons (objectKeys ids)).find?
      (fun l => decide (l.availableInventory < (ids.count l.id : Int))) = none := by
    rw [List.find?_eq_none]
    intro l hl
    simpa using hsat l hl
  unfold placeOrder
  rw [hids]
  simp [hname, hphone, haddr, hcity, hstate, hzip, hnum, hfind]

theorem flatMap_congr_mem {α β : Type} (l : List α) (f g : α → List β)
    (h : ∀ x ∈ l, f x = g x) : l.flatMap f = l.flatMap g := by
  induction l with
  | nil => rfl
  | cons a t ih =>
    rw [List.flatMap_cons, List.flatMap_cons, h a (List.mem_cons_self a t),
      ih (fun x hx => h x (List.mem_cons_of_mem a hx))]

/-- Grouped expansion versus per-unit expansion: expanding each lesson title
by its demand count (in lesson order) is a permutation of mapping each
demanded id (in request order) to its title, provided ids are unique per
lesson and every demanded id occurs among the lessons. -/
theorem flatMap_replicate_count_perm (f : String → String) (lessons : List Item) :
    ∀ ids : List String,
      (∀ l ∈ lessons, f l.id = l.title) →
      (lessons.map Item.id).Nodup →
      (∀ x ∈ ids, ∃ l ∈ lessons, l.id = x) →
      (lessons.flatMap (fun l => List.replicate (ids.count l.id) l.title)).Perm
        (ids.map f) := by
  induction lessons with
  | nil =>
    intro ids _ _ hex
    cases ids with
    | nil => simp
    | cons x t =>
      obtain ⟨l, hl, _⟩ := hex x (List.mem_cons_self x t)
      exact absurd hl (List.not_mem_nil l)
  | cons l rest ih =>
    intro ids hf hnd hex
    have hfl : f l.id = l.title := hf l (List.mem_cons_self l rest)
    have hnd' : (l.id :: rest.map Item.id).Nodup := by simpa using hnd
    have hlid : l.id ∉ rest.map Item.id := (List.nodup_cons.mp hnd').1
    have hndrest : (rest.map Item.id).Nodup := (List.nodup_cons.mp hnd').2
    have hyne : ∀ y ∈ rest, y.id ≠ l.id := by
      intro y hy h
      exact hlid (h ▸ List.mem_map_of_mem Item.id hy)
    have hperm1 : (ids.filter (fun x => x == l.id) ++
        ids.filter (fun x => !(x == l.id))).Perm ids :=
      List.filter_append_perm _ ids
    have hconst : ∀ b ∈ (ids.filter (fun x => x == l.id)).map f, b = l.title := by
      intro b hb
      obtain ⟨x, hx, rfl⟩ := List.mem_map.mp hb
      have hxl : x = l.id := by simpa using (List.mem_filter.mp hx).2
      rw [hxl, hfl]
    have hlen : ((ids.filter (fun x => x == l.id)).map f).length = ids.count l.id := by
      rw [List.length_map, ← List.countP_eq_length_filter]
      rfl
    have hrep : (ids.filter (fun x => x == l.id)).map f =
        List.replicate (ids.count l.id) l.title := by
      have h := List.eq_replicate_of_mem hconst
      rw [hlen] at h
      exact h
    have hex2 : ∀ x ∈ ids.filter (fun x => !(x == l.id)), ∃ y ∈ rest, y.id = x := by
      intro x hx
      have hxne : ¬(x = l.id) := by simpa using (List.mem_filter.mp hx).2
      obtain ⟨l', hl', hl'id⟩ := hex x (List.mem_filter.mp hx).1
      cases List.mem_cons.mp hl' with
      | inl h =>
        exact absurd (by rw [← hl'id, h]) hxne
      | inr h => exact ⟨l', h, hl'id⟩
    have hih := ih (ids.filter (fun x => !(x == l.id)))
      (fun y hy => hf y (List.mem_cons_of_mem l hy)) hndrest hex2
    have hcongr : rest.flatMap (fun y => List.replicate (ids.count y.id) y.title) =
        rest.flatMap (fun y =>
          List.replicate ((ids.filter (fun x => !(x == l.id))).count y.id) y.title) := by
      apply flatMap_congr_mem
      intro y hy
      rw [List.count_filter (by simp [hyne y hy])]
    rw [List.flatMap_cons, ← hrep, hcongr]
    refine List.Perm.trans (List.Perm.append_left _ hih) ?_
    rw [← List.map_append]
    exact hperm1.map f

theorem titleOf_eq (store : List Item) (hnd : (store.map Item.id).Nodup)
    (l : Item) (hl : l ∈ store) : titleOf store l.id = l.title := by
  unfold titleOf
  have hsome : (store.find? (fun it => it.id == l.id)).isSome := by
    rw [List.find?_isSome]
    exact ⟨l, hl, by simp⟩
  obtain ⟨it, hit⟩ := Option.isSome_iff_exists.mp hsome
  have hid : it.id = l.id := by simpa using List.find?_some hit
  have hmem : it ∈ store := List.mem_of_find?_eq_some hit
  have hitl : it = l := List.inj_on_of_nodup_map hnd hmem hl hid
  rw [hit, hitl]
  rfl

/-! ## Claim theorems -/

/-- Claim C1: PlaceOrder is all-or-nothing across lines — whenever any line
of the demand map asks for more units than the batch-read item has
available, the call returns the insufficient-inventory error and the
database is unchanged, so no availableCapacity of any item is decremented.
The scenario of the claim (one satisfiable line, one unsatisfiable line) is
an instance, exercised by the witness below. -/
theorem placeOrder_insufficient_reserves_nothing
    (db : DB) (req : OrderRequest) (ids : List String) (insertOk : Bool)
    (hids : req.lessonIDs = some ids)
    (hname : req.name ≠ "") (hphone : req.phoneNumber ≠ "") (haddr : req.address ≠ "")
    (hcity : req.city ≠ "") (hstate : req.state ≠ "") (hzip : req.zip ≠ "")
    (hnum : req.numberOfSpaces ≠ 0)
    (l : Item) (hl : l ∈ batchRead db.lessons (objectKeys ids))
    (hlt : l.availableInventory < (ids.count l.id : Int)) :
    (∃ t n a, (placeOrder db req insertOk).1 = .insufficient t n a) ∧
      (placeOrder db req insertOk).2 = db := by
  have hsome : ((batchRead db.lessons (objectKeys ids)).find?
      (fun l => decide (l.availableInventory < (ids.count l.id : Int)))).isSome := by
    rw [List.find?_isSome]
    exact ⟨l, hl, by simpa using hlt⟩
  obtain ⟨l', hl'⟩ := Option.isSome_iff_exists.mp hsome
  unfold placeOrder
  rw [hids]
  simp [hname, hphone, haddr, hcity, hstate, hzip, hnum, hl']

/-- Claim C1 witness: item A has capacity 5, item B capacity 2; an order
demanding A×3 and B×10 gets the insufficient-inventory error and leaves
both capacities untouched. -/
theorem placeOrder_insufficient_reserves_nothing_witness :
    (∃ t n a, (placeOrder ⟨[itemA, itemB], []⟩
      (baseReq (some ["a1", "a1", "a1", "b1", "b1", "b1", "b1", "b1", "b1", "b1", "b1",
        "b1", "b1"]) 13) true).1 = .insufficient t n a) ∧
    (placeOrder ⟨[itemA, itemB], []⟩
      (baseReq (some ["a1", "a1", "a1", "b1", "b1", "b1", "b1", "b1", "b1", "b1", "b1",
        "b1", "b1"]) 13) true).2 = ⟨[itemA, itemB], []⟩ :=
  placeOrder_insufficient_reserves_nothing ⟨[itemA, itemB], []⟩ _ _ true rfl
    (by decide) (by decide) (by decide) (by decide) (by decide) (by decide) (by decide)
    itemB (by decide) (by decide)

/-- Claim C2: the check-then-decrement pattern oversells under concurrency —
two interleaved orders for 3 units each of an item with capacity 5 both pass
the availability check of lines 109-116 before either runs the decrement
loop of lines 119-122, so both succeed: 3 + 3 = 6 > 5 units are reserved
and the final availableInventory is -1 < 0, violating the no-oversell
invariant claimed for the program. -/
theorem raceTwoOrders_oversells :
    raceTwoOrders [itemF] ["f1", "f1", "f1"] ["f1", "f1", "f1"] =
      some [⟨"f1", "Spanish", "MADRID", 1800, -1⟩] ∧
    (["f1", "f1", "f1"].count "f1") + (["f1", "f1", "f1"].count "f1") = 6 ∧
    ¬ (6 : Int) ≤ 5 ∧ (-1 : Int) < 0 := by
  decide

/-- Claim C3 counterexample: a storage failure while persisting the order
record (`insertOne` throws at line 143) surfaces as the 500 of line 150 — a
non-success outcome — yet the availableCapacity of item A has already been
decremented from 5 to 4 by lines 119-122 and is not restored, while no
Order record exists. -/
theorem storageError_leaves_decrement_applied :
    (placeOrder ⟨[itemA], []⟩ (baseReq (some ["a1"]) 1) false).1 = .storageError ∧
    (placeOrder ⟨[itemA], []⟩ (baseReq (some ["a1"]) 1) false).2.lessons =
      [⟨"a1", "English Language", "BIRMINGHAM", 2000, 4⟩] ∧
    (placeOrder ⟨[itemA], []⟩ (baseReq (some ["a1"]) 1) false).2.lessons ≠ [itemA] ∧
    (placeOrder ⟨[itemA], []⟩ (baseReq (some ["a1"]) 1) false).2.orders = [] := by
  decide

/-- Claim C3 as amended: on the ValidationError and InsufficientInventory
outcomes — which are returned before any decrement — the database is
unchanged (no capacity changed, no order recorded); on a StorageError from
the order insert no Order record is created, but the already-applied
decrements persist (see the counterexample). -/
theorem placeOrder_failFast_preserves_db (db : DB) (req : OrderRequest) (insertOk : Bool) :
    (((placeOrder db req insertOk).1 = .validationError ∨
      ∃ t n a, (placeOrder db req insertOk).1 = .insufficient t n a) →
      (placeOrder db req insertOk).2 = db) ∧
    ((placeOrder db req insertOk).1 = .storageError →
      (placeOrder db req insertOk).2.orders = db.orders) := by
  rcases placeOrder_cases db req insertOk with h | ⟨t, n, a, h⟩ | ⟨ids, _, _, h⟩ | ⟨ids, _, _, h⟩ <;>
    rw [h] <;> simp

/-- Claim C3 witness: a request with `lessonIDs` absent is a
ValidationError and leaves the database unchanged. -/
theorem placeOrder_failFast_preserves_db_witness :
    (placeOrder ⟨[itemA], []⟩ (baseReq none 2) true).2 = ⟨[itemA], []⟩ :=
  (placeOrder_failFast_preserves_db ⟨[itemA], []⟩ (baseReq none 2) true).1
    (Or.inl (by decide))

/-- Claim C4 counterexample: a request naming the existing item `a1` and the
nonexistent id `zz99` does not fail — the loops of lines 109-122 iterate
only over batch-read lessons, so the unknown line is silently skipped, the
order succeeds and `a1` is decremented, contradicting the claim that the
call treats the unknown line as insufficient inventory and fails. -/
theorem unknown_id_is_silently_ignored :
    (placeOrder ⟨[itemA], []⟩ (baseReq (some ["a1", "zz99"]) 2) true).1 = .success ∧
    (∀ t n a, (placeOrder ⟨[itemA], []⟩ (baseReq (some ["a1", "zz99"]) 2) true).1 ≠
      .insufficient t n a) ∧
    (placeOrder ⟨[itemA], []⟩ (baseReq (some ["a1", "zz99"]) 2) true).2.lessons =
      [⟨"a1", "English Language", "BIRMINGHAM", 2000, 4⟩] := by
  refine ⟨by decide, fun t n a => ?_, by decide⟩
  intro h
  have hs : (placeOrder ⟨[itemA], []⟩ (baseReq (some ["a1", "zz99"]) 2) true).1 = .success := by
    decide
  rw [hs] at h
  exact OrderResult.noConfusion h

/-- Claim C4 as amended: a demand line referencing an identifier absent from
the batch read is silently ignored rather than treated as insufficient
inventory — provided every existing line is satisfiable, the order completes
successfully, and the absent identifier is still recorded in the lessonIDs
of the persisted order. -/
theorem placeOrder_completes_despite_unknown_id
    (db : DB) (req : OrderRequest) (ids : List String) (x : String)
    (hids : req.lessonIDs = some ids)
    (hname : req.name ≠ "") (hphone : req.phoneNumber ≠ "") (haddr : req.address ≠ "")
    (hcity : req.city ≠ "") (hstate : req.state ≠ "") (hzip : req.zip ≠ "")
    (hnum : req.numberOfSpaces ≠ 0)
    (hx : x ∈ ids) (_hunknown : ∀ it ∈ db.lessons, it.id ≠ x)
    (hsat : ∀ l ∈ batchRead db.lessons (objectKeys ids),
      (ids.count l.id : Int) ≤ l.availableInventory) :
    (placeOrder db req true).1 = .success ∧
    ∃ o, (placeOrder db req true).2.orders = db.orders ++ [o] ∧ x ∈ o.lessonIDs := by
  rw [placeOrder_success_eq db req ids hids hname hphone haddr hcity hstate hzip hnum hsat]
  exact ⟨rfl, _, rfl, (mem_objectKeys x ids).mpr hx⟩

/-- Claim C4 witness: the amended statement at the concrete store `[itemA]`
and the request `[a1, zz99]` where `zz99` exists nowhere. -/
theorem placeOrder_completes_despite_unknown_id_witness :
    (placeOrder ⟨[itemA], []⟩ (baseReq (some ["a1", "zz99"]) 2) true).1 = .success ∧
    ∃ o, (placeOrder ⟨[itemA], []⟩ (baseReq (some ["a1", "zz99"]) 2) true).2.orders =
      [] ++ [o] ∧ "zz99" ∈ o.lessonIDs :=
  placeOrder_completes_despite_unknown_id ⟨[itemA], []⟩ _ ["a1", "zz99"] "zz99" rfl
    (by decide) (by decide) (by decide) (by decide) (by decide) (by decide) (by decide)
    (by decide) (by decide) (by decide)

/-- Claim C5 counterexample: a request whose `lessonIDs` is the empty array
passes the falsiness check of line 97 (an empty array is truthy), so
instead of a ValidationError the call succeeds and persists an order with
no items and no titles. -/
theorem empty_ids_succeeds :
    (placeOrder ⟨[itemA], []⟩ (baseReq (some []) 3) true).1 = .success ∧
    (placeOrder ⟨[itemA], []⟩ (baseReq (some []) 3) true).1 ≠ .validationError ∧
    (placeOrder ⟨[itemA], []⟩ (baseReq (some []) 3) true).2.orders.map Order.lessonIDs =
      [[]] := by
  decide

/-- Claim C5 as amended: an order request whose itemIDs sequence is empty
(but present) passes validation and succeeds as an empty order — no
capacity changes and an Order with empty lessonIDs and lessonNames is
persisted; a ValidationError occurs only when the field itself is absent. -/
theorem placeOrder_empty_ids_is_empty_success
    (db : DB) (req : OrderRequest)
    (hids : req.lessonIDs = some [])
    (hname : req.name ≠ "") (hphone : req.phoneNumber ≠ "") (haddr : req.address ≠ "")
    (hcity : req.city ≠ "") (hstate : req.state ≠ "") (hzip : req.zip ≠ "")
    (hnum : req.numberOfSpaces ≠ 0) :
    placeOrder db req true =
      (.success,
       ⟨db.lessons,
        db.orders ++ [⟨req.name, req.phoneNumber, req.address, req.city, req.state,
          req.zip, [], [], req.numberOfSpaces⟩]⟩) := by
  have h := placeOrder_success_eq db req [] hids hname hphone haddr hcity hstate hzip hnum
    (by simp [objectKeys, batchRead_nil])
  simpa [objectKeys, batchRead_nil, applyDecrements, buildLessonNames] using h

/-- Claim C5 witness: the amended statement at a concrete store and a fully
valid request carrying an empty id list. -/
theorem placeOrder_empty_ids_is_empty_success_witness :
    placeOrder ⟨[itemA], []⟩ (baseReq (some []) 3) true =
      (.success,
       ⟨[itemA], [] ++ [⟨"Ada", "0123456789", "1 Main St", "Leeds", "Yorkshire", "LS1",
          [], [], 3⟩]⟩) :=
  placeOrder_empty_ids_is_empty_success ⟨[itemA], []⟩ (baseReq (some []) 3) rfl
    (by decide) (by decide) (by decide) (by decide) (by decide) (by decide) (by decide)

/-- Claim C6 counterexample: for the request `[a1, b1, a1]` over items A
(title "English Language") and B (title "French"), lines 124-128 produce
the grouped titles [English Language, English Language, French], not the
per-unit request-ordered sequence [English Language, French, English
Language] that the claim requires. -/
theorem titles_are_not_request_ordered :
    (placeOrder ⟨[itemA, itemB], []⟩ (baseReq (some ["a1", "b1", "a1"]) 3) true).2.orders.map
      Order.lessonNames = [["English Language", "English Language", "French"]] ∧
    ["a1", "b1", "a1"].map (titleOf [itemA, itemB]) =
      ["English Language", "French", "English Language"] ∧
    (placeOrder ⟨[itemA, itemB], []⟩ (baseReq (some ["a1", "b1", "a1"]) 3) true).2.orders.map
      Order.lessonNames ≠ [["English Language", "French", "English Language"]] := by
  decide

/-- Claim C6 as amended: the persisted titles contain one title per
purchased unit of each existing item — as a multiset they agree with
mapping each entry of itemIDs to its title — but the sequence is grouped by
item in batch-read order (each title repeated its demanded count), not
parallel to the per-unit order of itemIDs. -/
theorem placeOrder_titles_grouped_by_item
    (db : DB) (req : OrderRequest) (ids : List String)
    (hids : req.lessonIDs = some ids)
    (hname : req.name ≠ "") (hphone : req.phoneNumber ≠ "") (haddr : req.address ≠ "")
    (hcity : req.city ≠ "") (hstate : req.state ≠ "") (hzip : req.zip ≠ "")
    (hnum : req.numberOfSpaces ≠ 0)
    (hnd : (db.lessons.map Item.id).Nodup)
    (hex : ∀ x ∈ ids, ∃ it ∈ db.lessons, it.id = x)
    (hsat : ∀ l ∈ batchRead db.lessons (objectKeys ids),
      (ids.count l.id : Int) ≤ l.availableInventory) :
    ∃ o, (placeOrder db req true).2.orders = db.orders ++ [o] ∧
      o.lessonNames = buildLessonNames (batchRead db.lessons (objectKeys ids)) ids ∧
      o.lessonNames.Perm (ids.map (titleOf db.lessons)) := by
  rw [placeOrder_success_eq db req ids hids hname hphone haddr hcity hstate hzip hnum hsat]
  refine ⟨_, rfl, rfl, ?_⟩
  unfold buildLessonNames
  apply flatMap_replicate_count_perm
  · intro l hl
    exact titleOf_eq db.lessons hnd l (List.mem_filter.mp hl).1
  · exact List.Nodup.sublist ((List.filter_sublist db.lessons).map Item.id) hnd
  · intro x hx
    obtain ⟨it, hit, hitid⟩ := hex x hx
    refine ⟨it, ?_, hitid⟩
    unfold batchRead
    rw [List.mem_filter]
    refine ⟨hit, ?_⟩
    have hmem : it.id ∈ objectKeys ids := (mem_objectKeys it.id ids).mpr (hitid ▸ hx)
    simpa using hmem

/-- Claim C6 witness: the amended statement at the concrete store
`[itemA, itemB]` and request `[a1, b1, a1]`. -/
theorem placeOrder_titles_grouped_by_item_witness :
    ∃ o, (placeOrder ⟨[itemA, itemB], []⟩
        (baseReq (some ["a1", "b1", "a1"]) 3) true).2.orders = [] ++ [o] ∧
      o.lessonNames =
        buildLessonNames (batchRead [itemA, itemB] (objectKeys ["a1", "b1", "a1"]))
          ["a1", "b1", "a1"] ∧
      o.lessonNames.Perm (["a1", "b1", "a1"].map (titleOf [itemA, itemB])) :=
  placeOrder_titles_grouped_by_item ⟨[itemA, itemB], []⟩ _ ["a1", "b1", "a1"] rfl
    (by decide) (by decide) (by decide) (by decide) (by decide) (by decide) (by decide)
    (by decide) (by decide) (by decide)

/-- Claim C7 counterexample: the persisted lessonIDs of the order for the
request `[a1, zz99]` are `[a1, zz99]`, although `zz99` is the id of no
stored item — the recorded set is not restricted to identifiers of items
that exist. -/
theorem nonexistent_id_is_recorded :
    (placeOrder ⟨[itemA], []⟩ (baseReq (some ["a1", "zz99"]) 2) true).2.orders.map
      Order.lessonIDs = [["a1", "zz99"]] ∧
    "zz99" ∉ ([itemA] : List Item).map Item.id := by
  decide

/-- Claim C7 as amended: the persisted lessonIDs of a successful order are
the identifiers of the request deduplicated in first-occurrence order —
without duplicates and containing exactly the ids that occur in the request,
whether or not they name existing items. -/
theorem placeOrder_records_dedup_request_ids
    (db : DB) (req : OrderRequest) (ids : List String)
    (hids : req.lessonIDs = some ids)
    (hname : req.name ≠ "") (hphone : req.phoneNumber ≠ "") (haddr : req.address ≠ "")
    (hcity : req.city ≠ "") (hstate : req.state ≠ "") (hzip : req.zip ≠ "")
    (hnum : req.numberOfSpaces ≠ 0)
    (hsat : ∀ l ∈ batchRead db.lessons (objectKeys ids),
      (ids.count l.id : Int) ≤ l.availableInventory) :
    ∃ o, (placeOrder db req true).2.orders = db.orders ++ [o] ∧
      o.lessonIDs = objectKeys ids ∧
      o.lessonIDs.Nodup ∧
      (∀ y, y ∈ o.lessonIDs ↔ y ∈ ids) := by
  rw [placeOrder_success_eq db req ids hids hname hphone haddr hcity hstate hzip hnum hsat]
  exact ⟨_, rfl, rfl, nodup_objectKeys ids, fun y => mem_objectKeys y ids⟩

/-- Claim C7 witness: the amended statement at the concrete request
`[a1, b1, a1]`, whose recorded ids are the deduplicated `[a1, b1]`. -/
theorem placeOrder_records_dedup_request_ids_witness :
    ∃ o, (placeOrder ⟨[itemA, itemB], []⟩ (baseReq (some ["a1", "b1", "a1"]) 3) true).2.orders =
      [] ++ [o] ∧
      o.lessonIDs = objectKeys ["a1", "b1", "a1"] ∧
      o.lessonIDs.Nodup ∧
      (∀ y, y ∈ o.lessonIDs ↔ y ∈ ["a1", "b1", "a1"]) :=
  placeOrder_records_dedup_request_ids ⟨[itemA, itemB], []⟩ _ ["a1", "b1", "a1"] rfl
    (by decide) (by decide) (by decide) (by decide) (by decide) (by decide) (by decide)
    (by decide)

/-- Claim C8: exact decrement — item F (id f1, title Spanish) has capacity
5; a valid order with itemIDs `[f1, f1, f1]` and numberOfSpaces 3 succeeds,
leaves the capacity of F at 2, and persists the denormalized titles
[Spanish, Spanish, Spanish]. -/
theorem placeOrder_exact_decrement :
    (placeOrder ⟨[itemF], []⟩ (baseReq (some ["f1", "f1", "f1"]) 3) true).1 = .success ∧
    (placeOrder ⟨[itemF], []⟩ (baseReq (some ["f1", "f1", "f1"]) 3) true).2.lessons =
      [⟨"f1", "Spanish", "MADRID", 1800, 2⟩] ∧
    (placeOrder ⟨[itemF], []⟩ (baseReq (some ["f1", "f1", "f1"]) 3) true).2.orders.map
      Order.lessonNames = [["Spanish", "Spanish", "Spanish"]] := by
  decide

/-- Claim C10: the validation of line 97 rejects any request whose
numberOfSpaces is falsy — in particular numberOfSpaces = 0 yields the 400
ValidationError and leaves the database untouched, even though 0 is neither
absent nor empty. -/
theorem placeOrder_rejects_zero_spaces (db : DB) (req : OrderRequest) (insertOk : Bool)
    (h : req.numberOfSpaces = 0) :
    placeOrder db req insertOk = (.validationError, db) := by
  unfold placeOrder
  cases req.lessonIDs with
  | none => rfl
  | some ids => simp [h]

/-- Claim C10 witness: a request with every other field present and valid
but numberOfSpaces = 0 is rejected. -/
theorem placeOrder_rejects_zero_spaces_witness :
    placeOrder ⟨[itemF], []⟩ (baseReq (some ["f1"]) 0) true =
      (.validationError, ⟨[itemF], []⟩) :=
  placeOrder_rejects_zero_spaces ⟨[itemF], []⟩ (baseReq (some ["f1"]) 0) true rfl
